import Mathlib

/-!
Verification of the message-routing / workspace / scheduler engine of the
synqed multi-agent coordination system.

The repository ships only usage scripts of the engine (they import the
`synqed` package); the engine's own code is not part of the source tree.
Every definition below is therefore modelled from the written specification
of the engine (routing protocol, hierarchical workspace model, turn
scheduler), faithful to the spec's words, and the theorems settle the
spec's claims against that model.
-/

namespace Synqed

/-- Modelled from the spec: the `Recipient` tagged union
`Single(agent_name) | Broadcast(ordered_list<agent_name>) | User | All`.
The engine code defining this union is not in the source tree. -/
inductive Recipient where
  | single (name : String)
  | broadcast (names : List String)
  | user
  | all
deriving DecidableEq

/-- Modelled from the spec: the wire shape of the `to` field —
`string | "USER" | "ALL" | list<string>`. -/
inductive RecipientSpec where
  | name (s : String)
  | names (l : List String)
deriving DecidableEq

/-- Modelled from the spec: the single typed decode step at the boundary that
turns a wire-level recipient into the `Recipient` tagged union. -/
def decodeRecipient : RecipientSpec → Recipient
  | .name s => if s = "USER" then .user else if s = "ALL" then .all else .single s
  | .names l => .broadcast l

/-- Modelled from the spec: one transcript entry. The router appends one entry
per resolved individual recipient, so each entry carries a concrete
recipient name (an agent name or the `USER` sentinel). -/
structure Message where
  sender : String
  recipient : String
  content : String
deriving DecidableEq

/-- Modelled from the spec: one pending delivery in the scheduler's
per-workspace pending-delivery queue. -/
structure Delivery where
  agent : String
  sender : String
  content : String
deriving DecidableEq

/-- Modelled from the spec: `RoutingError` — an unresolvable recipient. -/
inductive RoutingError where
  | unknownRecipient (name : String)
deriving DecidableEq

/-- Modelled from the spec: the result of `route`. -/
inductive RoutingResult where
  | ok (delivered : Nat)
  | err (e : RoutingError)
deriving DecidableEq

/-- True exactly when a routing result is a `RoutingError`. -/
def RoutingResult.isErr : RoutingResult → Bool
  | .ok _ => false
  | .err _ => true

/-- Modelled from the spec: terminal reasons of a workspace, the four
scheduler reasons plus the terminal error state recording an
`AgentInvocationError`. -/
inductive TerminalReason where
  | maxTurnsReached
  | userReached
  | explicitDoneMarker
  | queueDrained
  | agentError (msg : String)
deriving DecidableEq

/-- Modelled from the spec: per-workspace scheduler states
`PENDING -> RUNNING -> TERMINATED(reason)`. -/
inductive Status where
  | pending
  | running
  | terminated (r : TerminalReason)
deriving DecidableEq

/-- Modelled from the spec: a workspace — an isolated routing domain with an
id, a task-tree position (node id, parent, depth), an agent roster, an
append-only transcript, workspace-scoped per-agent conversational memory,
per-agent and per-workspace turn counters, the scheduler's pending-delivery
queue and scheduler status. -/
structure Workspace where
  wsId : Nat
  nodeId : String
  name : String
  parentId : Option Nat
  depth : Nat
  roster : List String
  transcript : List Message
  memory : List (String × List String)
  agentTurns : List (String × Nat)
  turnCount : Nat
  pending : List Delivery
  status : Status
deriving DecidableEq

/-- Workspace-scoped conversational memory of one agent. -/
def getMemory : List (String × List String) → String → List String
  | [], _ => []
  | e :: rest, a => if e.1 = a then e.2 else getMemory rest a

/-- Append one remembered line to an agent's workspace-scoped memory. -/
def pushMemory : List (String × List String) → String → String → List (String × List String)
  | [], a, m => [(a, [m])]
  | e :: rest, a, m => if e.1 = a then (e.1, e.2 ++ [m]) :: rest else e :: pushMemory rest a m

/-- Per-agent turn counter lookup (0 when the agent has taken no turn). -/
def lookupTurns : List (String × Nat) → String → Nat
  | [], _ => 0
  | e :: rest, a => if e.1 = a then e.2 else lookupTurns rest a

/-- Increment one agent's turn counter. -/
def bumpTurn : List (String × Nat) → String → List (String × Nat)
  | [], a => [(a, 1)]
  | e :: rest, a => if e.1 = a then (e.1, e.2 + 1) :: rest else e :: bumpTurn rest a

/-- Modelled from the spec: successful delivery to a list of resolved roster
members — one transcript entry and one pending delivery per addressee. -/
def deliverAll (sender : String) (names : List String) (content : String)
    (st : Workspace) : Workspace :=
  { st with
    transcript := st.transcript ++ names.map (fun n => ⟨sender, n, content⟩),
    pending := st.pending ++ names.map (fun n => ⟨n, sender, content⟩) }

/-- Modelled from the spec: `route(sender, recipient_spec, content, workspace)`.
`User`/`All` are always resolvable; a `Single` or `Broadcast` entry naming an
agent not present in the workspace roster fails with `RoutingError` and the
workspace is left untouched. On success one transcript entry is appended per
resolved individual recipient, and one pending delivery is scheduled per
addressed roster member. -/
def route (sender : String) (rcp : Recipient) (content : String)
    (st : Workspace) : RoutingResult × Workspace :=
  match rcp with
  | .user =>
      (.ok 1, { st with transcript := st.transcript ++ [⟨sender, "USER", content⟩] })
  | .single n =>
      if n ∈ st.roster then (.ok 1, deliverAll sender [n] content st)
      else (.err (.unknownRecipient n), st)
  | .broadcast names =>
      match names.find? (fun n => decide (n ∉ st.roster)) with
      | some n => (.err (.unknownRecipient n), st)
      | none => (.ok names.length, deliverAll sender names content st)
  | .all =>
      let others := st.roster.filter (fun n => n != sender)
      (.ok others.length, deliverAll sender others content st)

/-- Modelled from the spec: `route_message` — the wire-level entry point that
decodes the recipient and routes. -/
def routeMessage (sender : String) (spec : RecipientSpec) (content : String)
    (st : Workspace) : RoutingResult × Workspace :=
  route sender (decodeRecipient spec) content st

/-- Modelled from the spec: a `Directive` — the engine-facing result of one
agent invocation, naming a recipient and content. -/
structure Directive where
  recipient : Recipient
  content : String
deriving DecidableEq

/-- Modelled from the spec: `MalformedDirectiveError` — raised inside the
adapter when agent output cannot be parsed into a structured Directive. -/
inductive MalformedDirectiveError where
  | unparsable (raw : String)
deriving DecidableEq

/-- Modelled from the spec: the adapter's structured-parse step, producing a
`Directive` or a well-defined `MalformedDirectiveError`. The concrete JSON
extraction is abstracted as the `parse` argument. -/
def parseAgentOutput (parse : String → Option Directive) (raw : String) :
    Except MalformedDirectiveError Directive :=
  match parse raw with
  | some d => .ok d
  | none => .error (.unparsable raw)

/-- Modelled from the spec: adapter-level recovery — malformed or unparseable
agent output is wrapped as a plain-content Directive addressed to the agent's
configured `default_target`, never propagated as an error. -/
def adapterDecode (parse : String → Option Directive) (defaultTarget : String)
    (raw : String) : Directive :=
  match parseAgentOutput parse raw with
  | .ok d => d
  | .error _ => ⟨.single defaultTarget, raw⟩

/-- Modelled from the spec: the invokable unit of agent logic seen by the
scheduler — agent name, workspace-scoped conversational memory, latest
delivered content, yielding a Directive, silence (`none`) or an
`AgentInvocationError` carried as `Except.error`. -/
abbrev AgentLogics := String → List String → String → Except String (Option Directive)

/-- Modelled from the spec: an agent binding whose raw textual output passes
through the adapter boundary; what reaches the scheduler is always a
recovered `Directive`, never a malformed-output error. -/
def boundAgentLogic (parse : String → Option Directive) (defaultTarget : String)
    (rawLogic : String → List String → String → String) : AgentLogics :=
  fun a mem latest => .ok (some (adapterDecode parse defaultTarget (rawLogic a mem latest)))

/-- True exactly on the terminal error status recording an agent
invocation failure. -/
def isAgentError : Status → Bool
  | .terminated (.agentError _) => true
  | _ => false

/-- Modelled from the spec: granting one turn — the delivery is consumed,
the delivered line enters the agent's workspace-scoped memory, and both the
per-agent and the per-workspace turn counters are incremented. -/
def grantTurn (d : Delivery) (rest : List Delivery) (st : Workspace) : Workspace :=
  { st with
    pending := rest,
    memory := pushMemory st.memory d.agent (d.sender ++ ": " ++ d.content),
    agentTurns := bumpTurn st.agentTurns d.agent,
    turnCount := st.turnCount + 1,
    status := .running }

/-- Modelled from the spec: applying the Directive returned by an invocation
via the router (a rejected recipient leaves the transcript untouched);
`user_reached` applies when the recipient resolves to `User` and no further
pending deliveries remain. -/
def applyDirective (agent : String) (dir : Directive) (st : Workspace) : Workspace :=
  if (route agent dir.recipient dir.content st).1.isErr then
    (route agent dir.recipient dir.content st).2
  else if dir.recipient = Recipient.user ∧
          (route agent dir.recipient dir.content st).2.pending = [] then
    { (route agent dir.recipient dir.content st).2 with status := .terminated .userReached }
  else (route agent dir.recipient dir.content st).2

/-- Modelled from the spec: one scheduler step on one workspace. A terminated
workspace is left as is; an empty queue terminates with `queue_drained`; the
`max_agent_turns` limit is checked before granting a new turn; otherwise the
oldest pending delivery is popped, the addressed agent is invoked, and the
resulting Directive is applied (an invocation error moves the workspace to
the terminal error state; silence consumes the turn and emits nothing). -/
def step (maxTurns : Nat) (logics : AgentLogics) (st : Workspace) : Workspace :=
  match st.status with
  | .terminated _ => st
  | _ =>
    match st.pending with
    | [] => { st with status := .terminated .queueDrained }
    | d :: rest =>
      if maxTurns ≤ st.turnCount then
        { st with status := .terminated .maxTurnsReached }
      else
        match logics d.agent (getMemory st.memory d.agent) d.content with
        | .error e => { grantTurn d rest st with status := .terminated (.agentError e) }
        | .ok none => grantTurn d rest st
        | .ok (some dir) => applyDirective d.agent dir (grantTurn d rest st)

/-- Modelled from the spec: the scheduler's single-workspace `run`, driving
turn after turn until the workspace is terminal (fuel-bounded loop). -/
def run (maxTurns : Nat) (logics : AgentLogics) : Nat → Workspace → Workspace
  | 0, st => st
  | fuel + 1, st =>
    match st.status with
    | .terminated _ => st
    | _ => run maxTurns logics fuel (step maxTurns logics st)

/-- Modelled from the spec: the fleet-wide `run_global_scheduler` — every
scheduled workspace is driven to completion independently of one another's
turn budgets and failures, and per-workspace outcomes are collected. -/
def runFleet (maxTurns : Nat) (logics : AgentLogics) (fuel : Nat)
    (wss : List Workspace) : List Workspace :=
  wss.map (run maxTurns logics fuel)

/-- Modelled from the spec: `TaskTreeNode` — produced by the external planner,
consumed read-only by the Workspace Manager. -/
inductive TaskTreeNode where
  | node (tid : String) (description : String) (requiredAgents : List String)
      (children : List TaskTreeNode) (mayNeedSubteams : Bool)

/-- Task-tree node id. -/
def TaskTreeNode.tid : TaskTreeNode → String
  | .node t _ _ _ _ => t

/-- Task-tree node description. -/
def TaskTreeNode.description : TaskTreeNode → String
  | .node _ d _ _ _ => d

/-- Task-tree node roster declaration. -/
def TaskTreeNode.requiredAgents : TaskTreeNode → List String
  | .node _ _ r _ _ => r

/-- Ordered children of a task-tree node. -/
def TaskTreeNode.children : TaskTreeNode → List TaskTreeNode
  | .node _ _ _ cs _ => cs

/-- Modelled from the spec: a task plan handed to the engine by the planner. -/
structure TaskPlan where
  root : TaskTreeNode

/-- Modelled from the spec: Workspace Manager errors. -/
inductive WMError where
  | workspaceDepthExceeded (depth : Nat)
  | parentNotFound (pid : Nat)
deriving DecidableEq

/-- Modelled from the spec: the Workspace Manager's state — the workspaces it
tracks for tree introspection, a fresh-id source, and the configured
`max_workspace_depth`. -/
structure ManagerState where
  workspaces : List Workspace
  nextId : Nat
  maxDepth : Nat
deriving DecidableEq

/-- Look a workspace up by id in the manager's tracked set. -/
def findWorkspace (st : ManagerState) (wid : Nat) : Option Workspace :=
  st.workspaces.find? (fun w => w.wsId == wid)

/-- Every tracked workspace id is below the manager's fresh-id source
(holds for every state the manager builds, since ids are allocated from
the counter). -/
def IdsBelow (st : ManagerState) : Prop :=
  ∀ w ∈ st.workspaces, w.wsId < st.nextId

/-- Modelled from the spec: depth assignment by accumulation from the root —
`0` without a parent, `parent.depth + 1` under a tracked parent, an error
under an untracked one. -/
def computeDepth (st : ManagerState) : Option Nat → Except WMError Nat
  | none => .ok 0
  | some pid =>
    match findWorkspace st pid with
    | some p => .ok (p.depth + 1)
    | none => .error (.parentNotFound pid)

/-- The fresh workspace record the manager builds for one task-tree node:
the roster is exactly the node's `required_agents`, bound into a fresh
workspace-scoped instance set with empty memory and counters. -/
def freshWorkspace (node : TaskTreeNode) (parentId : Option Nat)
    (depth wid : Nat) : Workspace :=
  { wsId := wid, nodeId := node.tid, name := node.description,
    parentId := parentId, depth := depth, roster := node.requiredAgents,
    transcript := [], memory := [], agentTurns := [], turnCount := 0,
    pending := [], status := .pending }

/-- Modelled from the spec: `create_workspace(task_tree_node, parent_workspace_id)`.
`depth` is assigned by accumulation from the root; a computed depth exceeding
the configured `max_workspace_depth` is refused with `WorkspaceDepthExceeded`
before any workspace state is built (the manager is returned untouched). -/
def createWorkspace (node : TaskTreeNode) (parentId : Option Nat)
    (st : ManagerState) : Except WMError Workspace × ManagerState :=
  match computeDepth st parentId with
  | .error e => (.error e, st)
  | .ok depth =>
    if st.maxDepth < depth then (.error (.workspaceDepthExceeded depth), st)
    else
      (.ok (freshWorkspace node parentId depth st.nextId),
       { st with
         workspaces := st.workspaces ++ [freshWorkspace node parentId depth st.nextId],
         nextId := st.nextId + 1 })

/-- Parent id of a tracked workspace, if tracked. -/
def parentOf (l : List Workspace) (wid : Nat) : Option Nat :=
  match l.find? (fun w => w.wsId == wid) with
  | some w => w.parentId
  | none => none

/-- Fuel-bounded check that workspace id `x` lies in the subtree rooted at
`target` (i.e. `x = target` or `target` is reached from `x` along parent
links of the tracked set `l`). -/
def inSubtreeB (l : List Workspace) : Nat → Nat → Nat → Bool
  | 0, x, target => x == target
  | fuel + 1, x, target =>
    x == target ||
      (match parentOf l x with
       | some p => inSubtreeB l fuel p target
       | none => false)

/-- Modelled from the spec: `destroy_workspace(id)` — idempotent, cascades to
all descendants before removing the node from tree introspection. -/
def destroyWorkspace (st : ManagerState) (wid : Nat) : ManagerState :=
  { st with
    workspaces :=
      st.workspaces.filter
        (fun w => !(inSubtreeB st.workspaces st.workspaces.length w.wsId wid)) }

/-- Modelled from the spec: `get_workspace_tree()` — the whole-tree
introspection view (id, parent and name of every tracked workspace). -/
def getWorkspaceTree (st : ManagerState) : List (Nat × Option Nat × String) :=
  st.workspaces.map (fun w => (w.wsId, w.parentId, w.name))

/-- Modelled from the spec: the order-independent pairing of the
Auto-Workspace Manager's `(sender_id, recipient_id, thread_id)` key. -/
def pairKey (a b t : String) : String × String × String :=
  if a ≤ b then (a, b, t) else (b, a, t)

/-- Modelled from the spec: the Auto-Workspace Manager's state — the mapping
from order-independent keys to workspace ids, plus the Workspace Manager it
defers construction to. -/
structure AutoState where
  mapping : List ((String × String × String) × Nat)
  mgr : ManagerState
deriving DecidableEq

/-- Modelled from the spec: the minimal two-agent task node the Auto-Workspace
Manager hands to the Workspace Manager for an ad hoc conversation. -/
def autoNode (a b : String) : TaskTreeNode :=
  .node "auto" "auto workspace" [a, b] [] false

/-- Well-formedness of the Auto-Workspace Manager's state: every mapped
workspace id is below the manager's fresh-id source and distinct keys map to
distinct workspace ids (both hold for every state the manager builds). -/
def AutoWF (st : AutoState) : Prop :=
  (∀ e ∈ st.mapping, e.2 < st.mgr.nextId) ∧
  (∀ e ∈ st.mapping, ∀ e' ∈ st.mapping, e.2 = e'.2 → e.1 = e'.1)

/-- The Auto-Workspace Manager state after a lookup miss on the key
`pairKey a b t`: the key is bound to the freshly allocated workspace id and
the Workspace Manager has built the fresh two-agent workspace. -/
def autoAfterMiss (a b t : String) (st : AutoState) : AutoState :=
  { mapping := st.mapping ++ [(pairKey a b t, st.mgr.nextId)],
    mgr := { st.mgr with
      workspaces := st.mgr.workspaces ++
        [freshWorkspace (autoNode a b) none 0 st.mgr.nextId],
      nextId := st.mgr.nextId + 1 } }

/-- Modelled from the spec: `get_or_create_workspace(sender_id, recipient_id,
thread_id)` — identical keys (under order-independent pairing) always return
the same workspace; a missing key defers to the Workspace Manager for a
fresh root workspace with the minimal two-agent roster. -/
def getOrCreateWorkspace (a b t : String) (st : AutoState) : Nat × AutoState :=
  match st.mapping.find? (fun e => decide (e.1 = pairKey a b t)) with
  | some e => (e.2, st)
  | none =>
    match createWorkspace (autoNode a b) none st.mgr with
    | (.ok w, mgr') =>
        (w.wsId, { mapping := st.mapping ++ [(pairKey a b t, w.wsId)], mgr := mgr' })
    | (.error _, mgr') => (0, { st with mgr := mgr' })

/-- Modelled from the spec: seeding a workspace — the caller routes the user
task to the workspace's first roster member. -/
def seedWorkspace (userTask : String) (w : Workspace) : Workspace :=
  match w.roster with
  | [] => w
  | a :: _ => (route "USER" (.single a) userTask w).2

/-- Modelled from the spec: creating one child workspace per child node of the
task-plan root, in the tree's child order, each parented to the root. -/
def createChildWorkspaces (rootId : Nat) :
    List TaskTreeNode → ManagerState → Except WMError (List Workspace) × ManagerState
  | [], st => (.ok [], st)
  | c :: cs, st =>
    match createWorkspace c (some rootId) st with
    | (.ok w, st1) =>
      (match createChildWorkspaces rootId cs st1 with
       | (.ok ws, st2) => (.ok (w :: ws), st2)
       | (.error e, st2) => (.error e, st2))
    | (.error e, st1) => (.error e, st1)

/-- Modelled from the spec: `execute_task_plan(task_plan, user_task)` — builds
the workspace tree via the Workspace Manager (root first, then one child per
child node in order), seeds the root, runs the fleet, and returns
`(root_workspace, child_workspaces)` for caller-side aggregation. -/
def executeTaskPlan (maxTurns : Nat) (logics : AgentLogics) (fuel : Nat)
    (plan : TaskPlan) (userTask : String) (st : ManagerState) :
    Except WMError (Workspace × List Workspace) × ManagerState :=
  match createWorkspace plan.root none st with
  | (.error e, st1) => (.error e, st1)
  | (.ok root, st1) =>
    match createChildWorkspaces root.wsId plan.root.children st1 with
    | (.error e, st2) => (.error e, st2)
    | (.ok children, st2) =>
      (.ok (run maxTurns logics fuel (seedWorkspace userTask root),
            runFleet maxTurns logics fuel children), st2)

/-- Node ids of the returned child workspaces, when the plan executed. -/
def childNodeIds (r : Except WMError (Workspace × List Workspace)) :
    Option (List String) :=
  (r.toOption).map (fun rc => rc.2.map (fun w => w.nodeId))

/-- Number of returned child workspaces, when the plan executed. -/
def childCount (r : Except WMError (Workspace × List Workspace)) : Option Nat :=
  (r.toOption).map (fun rc => rc.2.length)

/-- True when every returned child workspace is parented to the returned
root workspace. -/
def childrenLinked (r : Except WMError (Workspace × List Workspace)) : Bool :=
  match r with
  | .ok rc => rc.2.all (fun w => w.parentId == some rc.1.wsId)
  | .error _ => false

/-- Checks the workspace invariant `depth == 0` iff `parent_id` is absent on
the outcome of a creation. -/
def resultConsistent : Except WMError Workspace → Bool
  | .ok w => (w.depth == 0) == (w.parentId == none)
  | .error _ => true

/-- The identity-and-position skeleton of a workspace: everything the
scheduler never touches. -/
def skel (w : Workspace) : Nat × String × Option Nat × Nat × List String :=
  (w.wsId, w.nodeId, w.parentId, w.depth, w.roster)

/-- Two ping-pong agents: `A` always routes to `B` and `B` always routes back
to `A`, indefinitely (the unbounded scenario of the spec). -/
def pingLogics : AgentLogics := fun a _ _ =>
  if a = "A" then .ok (some ⟨.single "B", "ping"⟩)
  else if a = "B" then .ok (some ⟨.single "A", "pong"⟩)
  else .ok none

/-- Initial two-agent workspace for the ping-pong scenario, seeded with one
pending delivery to `A`. -/
def pingInit : Workspace :=
  { wsId := 0, nodeId := "ping", name := "ping", parentId := none, depth := 0,
    roster := ["A", "B"], transcript := [⟨"USER", "A", "go"⟩],
    memory := [], agentTurns := [], turnCount := 0,
    pending := [⟨"A", "USER", "go"⟩], status := .running }

/-- A workspace with a one-agent roster, used to exercise routing to an
unknown recipient. -/
def wsAliceOnly : Workspace :=
  { wsId := 1, nodeId := "t", name := "t", parentId := none, depth := 0,
    roster := ["alice"], transcript := [⟨"USER", "alice", "hi"⟩],
    memory := [], agentTurns := [], turnCount := 0,
    pending := [], status := .running }

/-- A coordinator that broadcasts one task to its three team leads. -/
def bcastLogics : AgentLogics := fun a _ _ =>
  if a = "coordinator" then .ok (some ⟨.broadcast ["L1", "L2", "L3"], "go"⟩)
  else .ok none

/-- Initial workspace for the broadcast scenario: a coordinator and three
leads, one pending delivery to the coordinator. -/
def bcastInit : Workspace :=
  { wsId := 2, nodeId := "b", name := "b", parentId := none, depth := 0,
    roster := ["coordinator", "L1", "L2", "L3"], transcript := [],
    memory := [], agentTurns := [], turnCount := 0,
    pending := [⟨"coordinator", "USER", "task"⟩], status := .running }

/-- Agent logic whose invocation raises an adapter-level failure. -/
def errLogics : AgentLogics := fun a _ _ =>
  if a = "failing" then .error "adapter failure"
  else .ok (some ⟨.user, "done"⟩)

/-- A workspace whose next turn raises an invocation error. -/
def wsFailing : Workspace :=
  { wsId := 3, nodeId := "f", name := "f", parentId := none, depth := 0,
    roster := ["failing"], transcript := [],
    memory := [], agentTurns := [], turnCount := 0,
    pending := [⟨"failing", "USER", "go"⟩], status := .running }

/-- An independent healthy workspace running in the same fleet call. -/
def wsHealthy : Workspace :=
  { wsId := 4, nodeId := "h", name := "h", parentId := none, depth := 0,
    roster := ["ok"], transcript := [],
    memory := [], agentTurns := [], turnCount := 0,
    pending := [⟨"ok", "USER", "go"⟩], status := .running }

/-- A sibling workspace sharing the agent name `ok` with `wsHealthy` but with
different content, for the noninterference witness. -/
def wsHealthyOther : Workspace :=
  { wsId := 5, nodeId := "h2", name := "h2", parentId := none, depth := 0,
    roster := ["ok"], transcript := [],
    memory := [], agentTurns := [], turnCount := 0,
    pending := [⟨"ok", "USER", "other content"⟩], status := .running }

/-- A sibling workspace also rostering the agent name `ok`, with yet other
content, for the noninterference witness. -/
def wsHealthyAlt : Workspace :=
  { wsId := 6, nodeId := "h3", name := "h3", parentId := none, depth := 0,
    roster := ["ok"], transcript := [],
    memory := [], agentTurns := [], turnCount := 0,
    pending := [⟨"ok", "USER", "alternative content"⟩], status := .running }

/-- A tracked root workspace record, for the creation witness. -/
def rootWs : Workspace :=
  { wsId := 0, nodeId := "r", name := "root", parentId := none, depth := 0,
    roster := ["pm"], transcript := [], memory := [], agentTurns := [],
    turnCount := 0, pending := [], status := .pending }

/-- A manager tracking one root workspace, for the creation witnesses. -/
def mgrOneRoot : ManagerState :=
  { workspaces := [rootWs], nextId := 1, maxDepth := 1 }

/-- A sample child task node, for the creation witness. -/
def nodeChild : TaskTreeNode :=
  .node "n1" "child task" ["a1"] [] false

/-- A manager tracking a root (id 0) with two children (ids 1 and 2), for the
destruction witness. -/
def mgrTree : ManagerState :=
  { workspaces :=
      [{ wsId := 0, nodeId := "r", name := "root", parentId := none, depth := 0,
         roster := ["pm"], transcript := [], memory := [], agentTurns := [],
         turnCount := 0, pending := [], status := .pending },
       { wsId := 1, nodeId := "c1", name := "research", parentId := some 0, depth := 1,
         roster := ["r1"], transcript := [], memory := [], agentTurns := [],
         turnCount := 0, pending := [], status := .pending },
       { wsId := 2, nodeId := "c2", name := "dev", parentId := some 0, depth := 1,
         roster := ["d1"], transcript := [], memory := [], agentTurns := [],
         turnCount := 0, pending := [], status := .pending }],
    nextId := 3, maxDepth := 3 }

/-- An empty manager with depth budget 2, for the task-plan witness. -/
def mgrEmpty : ManagerState :=
  { workspaces := [], nextId := 0, maxDepth := 2 }

/-- An empty auto-workspace manager state. -/
def autoEmpty : AutoState :=
  { mapping := [], mgr := mgrEmpty }

/-- A two-child task plan, for the task-plan witness. -/
def planTwo : TaskPlan :=
  { root := .node "root" "sales workflow" ["pm"]
      [.node "c1" "research" ["r1"] [] false,
       .node "c2" "materials" ["m1"] [] false] false }

-- Routing touches only the transcript and the pending queue: every other
-- field of the workspace is left untouched.
theorem route_fields (s : String) (r : Recipient) (c : String) (st : Workspace) :
    (route s r c st).2.turnCount = st.turnCount ∧
    (route s r c st).2.agentTurns = st.agentTurns ∧
    (route s r c st).2.memory = st.memory ∧
    (route s r c st).2.status = st.status ∧
    skel (route s r c st).2 = skel st := by
  cases r with
  | user =>
      simp only [route]
      simp [skel]
  | single n =>
      by_cases h : n ∈ st.roster
      · simp only [route, if_pos h]
        simp [deliverAll, skel]
      · simp only [route, if_neg h]
        simp [skel]
  | broadcast ns =>
      cases hf : ns.find? (fun n => decide (n ∉ st.roster)) with
      | none =>
          simp only [route, hf]
          simp [deliverAll, skel]
      | some m =>
          simp only [route, hf]
          simp [skel]
  | all =>
      simp only [route]
      simp [deliverAll, skel]

-- Applying a directive never changes the turn counter.
theorem applyDirective_turnCount (a : String) (dir : Directive) (st : Workspace) :
    (applyDirective a dir st).turnCount = st.turnCount := by
  have h := (route_fields a dir.recipient dir.content st).1
  unfold applyDirective
  split
  · exact h
  · split
    · exact h
    · exact h

-- Applying a directive either keeps the status or terminates with
-- `user_reached`.
theorem applyDirective_status (a : String) (dir : Directive) (st : Workspace) :
    (applyDirective a dir st).status = st.status ∨
    (applyDirective a dir st).status = .terminated .userReached := by
  have h := (route_fields a dir.recipient dir.content st).2.2.2.1
  unfold applyDirective
  split
  · exact Or.inl h
  · split
    · exact Or.inr rfl
    · exact Or.inl h

-- Applying a directive never changes the workspace's identity-and-position
-- skeleton.
theorem applyDirective_skel (a : String) (dir : Directive) (st : Workspace) :
    skel (applyDirective a dir st) = skel st := by
  have h := (route_fields a dir.recipient dir.content st).2.2.2.2
  unfold applyDirective
  split
  · exact h
  · split
    · exact h
    · exact h

-- One scheduler step never changes the workspace's identity-and-position
-- skeleton.
theorem step_skel (m : Nat) (logics : AgentLogics) (st : Workspace) :
    skel (step m logics st) = skel st := by
  unfold step
  split
  · rfl
  · split
    · rfl
    · split
      · rfl
      · split
        · rfl
        · rfl
        · exact applyDirective_skel _ _ _

-- Running never changes the workspace's identity-and-position skeleton.
theorem run_skel (m : Nat) (logics : AgentLogics) :
    ∀ (fuel : Nat) (st : Workspace), skel (run m logics fuel st) = skel st
  | 0, _ => rfl
  | fuel + 1, st => by
      unfold run
      split
      · rfl
      · rw [run_skel m logics fuel _, step_skel]

-- A terminated workspace is left as is by the scheduler loop.
theorem run_terminated (m : Nat) (logics : AgentLogics) (r : TerminalReason) :
    ∀ (fuel : Nat) (st : Workspace), st.status = .terminated r →
      run m logics fuel st = st
  | 0, _, _ => rfl
  | _ + 1, st, h => by
      unfold run
      rw [h]

-- A step from a state within the turn budget stays within the turn budget.
theorem step_turnCount_le (m : Nat) (logics : AgentLogics) (st : Workspace)
    (h : st.turnCount ≤ m) : (step m logics st).turnCount ≤ m := by
  unfold step
  split
  · exact h
  · split
    · exact h
    · split
      · exact h
      · rename_i hm
        have hlt : st.turnCount < m := Nat.not_le.mp hm
        split
        · exact hlt
        · exact hlt
        · rw [applyDirective_turnCount]
          exact hlt

-- Running from a state within the turn budget stays within the turn budget.
theorem run_turnCount_le (m : Nat) (logics : AgentLogics) :
    ∀ (fuel : Nat) (st : Workspace), st.turnCount ≤ m →
      (run m logics fuel st).turnCount ≤ m
  | 0, _, h => h
  | fuel + 1, st, h => by
      unfold run
      split
      · exact h
      · exact run_turnCount_le m logics fuel _ (step_turnCount_le m logics st h)

-- Incrementing one agent's turn counter advances exactly that agent's count.
theorem lookupTurns_bumpTurn (l : List (String × Nat)) (a : String) :
    lookupTurns (bumpTurn l a) a = lookupTurns l a + 1 := by
  induction l with
  | nil => simp [bumpTurn, lookupTurns]
  | cons e rest ih =>
      by_cases h : e.1 = a
      · simp [bumpTurn, lookupTurns, h]
      · simp [bumpTurn, lookupTurns, h, ih]

/-- C1: a `route` call whose `Single` or `Broadcast` recipient names an agent
absent from the workspace roster (and which is not the `User` or `All`
variant) fails with a `RoutingError`; the message is never redirected to a
fallback agent or to `User` — no delivery happens at all — and the workspace,
its transcript in particular, is exactly as it was before the call. -/
theorem unknown_recipient_routing_fails
    (sender content : String) (st : Workspace) (rcp : Recipient)
    (h : (∃ n, rcp = .single n ∧ n ∉ st.roster ∧ n ≠ "USER" ∧ n ≠ "ALL") ∨
         (∃ names n, rcp = .broadcast names ∧ n ∈ names ∧ n ∉ st.roster ∧
            n ≠ "USER" ∧ n ≠ "ALL")) :
    (route sender rcp content st).1.isErr = true ∧
    (route sender rcp content st).2 = st ∧
    (route sender rcp content st).2.transcript = st.transcript := by
  rcases h with ⟨n, rfl, hn, -, -⟩ | ⟨ns, n, rfl, hmem, hn, -, -⟩
  · simp only [route, if_neg hn]
    simp [RoutingResult.isErr]
  · rcases hf : ns.find? (fun n => decide (n ∉ st.roster)) with - | m
    · exfalso
      have := List.find?_eq_none.mp hf n hmem
      simp only [decide_eq_true_eq] at this
      exact this hn
    · simp only [route, hf]
      simp [RoutingResult.isErr]

/-- C2: the per-workspace turn counter never exceeds the configured
`max_agent_turns`; the limit is checked before granting each new turn — at
the limit the scheduler terminates the workspace with `max_turns_reached`
without invoking anything or touching any counter (so an in-flight turn is
never cut short); and in the unbounded scenario of two agents routing to
each other indefinitely with the limit set to 4, the run terminates exactly
after the 4th turn with terminal reason `max_turns_reached`. -/
theorem max_agent_turns_never_exceeded
    (maxTurns fuel : Nat) (logics : AgentLogics) (st : Workspace)
    (h : st.turnCount ≤ maxTurns) :
    (run maxTurns logics fuel st).turnCount ≤ maxTurns ∧
    (st.status = .running → st.pending ≠ [] → maxTurns ≤ st.turnCount →
      step maxTurns logics st = { st with status := .terminated .maxTurnsReached }) ∧
    (run 4 pingLogics 10 pingInit).turnCount = 4 ∧
    (run 4 pingLogics 10 pingInit).status = .terminated .maxTurnsReached := by
  refine ⟨run_turnCount_le maxTurns logics fuel st h, ?_, by decide, by decide⟩
  intro hs hp hle
  rcases hpend : st.pending with - | ⟨d, rest⟩
  · exact absurd hpend hp
  · unfold step
    rw [hs, hpend]
    dsimp only
    rw [if_pos hle]

/-- C3: a successful `Broadcast` send to `k` named roster recipients appends
exactly `k` transcript entries (one per resolved individual recipient),
consumes exactly one turn of the sender's budget (the sender's per-agent
counter and the per-workspace counter each advance by exactly one), and
schedules `k` independent pending deliveries — hence `k` independent future
turns, one per addressee. -/
theorem broadcast_fanout
    (maxTurns : Nat) (logics : AgentLogics) (st : Workspace)
    (d : Delivery) (rest : List Delivery) (names : List String) (c : String)
    (hs : st.status = .running) (hp : st.pending = d :: rest)
    (ht : st.turnCount < maxTurns)
    (hl : logics d.agent (getMemory st.memory d.agent) d.content =
          .ok (some ⟨.broadcast names, c⟩))
    (hr : ∀ n ∈ names, n ∈ st.roster) :
    (step maxTurns logics st).transcript =
      st.transcript ++ names.map (fun n => ⟨d.agent, n, c⟩) ∧
    (step maxTurns logics st).transcript.length =
      st.transcript.length + names.length ∧
    (step maxTurns logics st).pending =
      rest ++ names.map (fun n => ⟨n, d.agent, c⟩) ∧
    (step maxTurns logics st).pending.length = rest.length + names.length ∧
    lookupTurns (step maxTurns logics st).agentTurns d.agent =
      lookupTurns st.agentTurns d.agent + 1 ∧
    (step maxTurns logics st).turnCount = st.turnCount + 1 := by
  have hfind : names.find?
      (fun n => decide (n ∉ (grantTurn d rest st).roster)) = none := by
    refine List.find?_eq_none.mpr (fun n hn => ?_)
    simp only [decide_eq_true_eq, Decidable.not_not]
    exact hr n hn
  have hstep : step maxTurns logics st =
      applyDirective d.agent ⟨.broadcast names, c⟩ (grantTurn d rest st) := by
    unfold step
    rw [hs, hp]
    dsimp only
    rw [if_neg (Nat.not_le.mpr ht), hl]
  rw [hstep]
  unfold applyDirective
  simp only [route, hfind, RoutingResult.isErr, deliverAll]
  refine ⟨rfl, by simp [grantTurn], rfl, by simp [grantTurn], ?_, rfl⟩
  exact lookupTurns_bumpTurn st.agentTurns d.agent

/-- C7: an `AgentInvocationError` raised during one workspace's agent turn is
contained at the scheduler's turn boundary — the owning workspace transitions
to the terminal error state reporting that error as its status, the fleet run
is a total function collecting per-workspace outcomes (no exception escapes
it), and every other workspace of the same fleet run is driven to exactly
the outcome it would reach on its own, unaffected. -/
theorem fleet_error_containment
    (maxTurns fuel : Nat) (logics : AgentLogics) (w1 w2 : Workspace)
    (d : Delivery) (rest : List Delivery) (e : String)
    (hs : w1.status = .running) (hp : w1.pending = d :: rest)
    (ht : w1.turnCount < maxTurns)
    (hl : logics d.agent (getMemory w1.memory d.agent) d.content = .error e) :
    (run maxTurns logics (fuel + 1) w1).status = .terminated (.agentError e) ∧
    runFleet maxTurns logics (fuel + 1) [w1, w2] =
      [run maxTurns logics (fuel + 1) w1, run maxTurns logics (fuel + 1) w2] ∧
    (runFleet maxTurns logics (fuel + 1) [w1, w2])[1]? =
      some (run maxTurns logics (fuel + 1) w2) := by
  have hstep : step maxTurns logics w1 =
      { grantTurn d rest w1 with status := .terminated (.agentError e) } := by
    unfold step
    rw [hs, hp]
    dsimp only
    rw [if_neg (Nat.not_le.mpr ht), hl]
  have hrun : run maxTurns logics (fuel + 1) w1 =
      { grantTurn d rest w1 with status := .terminated (.agentError e) } := by
    unfold run
    rw [hs]
    dsimp only
    rw [hstep]
    exact run_terminated maxTurns logics _ fuel _ rfl
  exact ⟨by rw [hrun], by simp [runFleet], by simp [runFleet]⟩

/-- C8: malformed or unparseable agent output is not a fatal scheduler error:
the adapter's parse step reports a `MalformedDirectiveError`, the adapter
recovers locally by wrapping the raw output as a plain-content Directive
addressed to the agent's configured `default_target`, and what reaches the
scheduler through a bound agent is that recovered Directive — a step driving
a bound agent never introduces the agent-error terminal state. -/
theorem malformed_output_recovered
    (parse : String → Option Directive) (defaultTarget raw : String)
    (maxTurns : Nat) (st : Workspace)
    (rawLogic : String → List String → String → String)
    (h : parse raw = none) :
    parseAgentOutput parse raw = .error (.unparsable raw) ∧
    adapterDecode parse defaultTarget raw = ⟨.single defaultTarget, raw⟩ ∧
    isAgentError (step maxTurns (boundAgentLogic parse defaultTarget rawLogic) st).status =
      isAgentError st.status := by
  have h1 : parseAgentOutput parse raw = .error (.unparsable raw) := by
    unfold parseAgentOutput
    rw [h]
  refine ⟨h1, by unfold adapterDecode; rw [h1], ?_⟩
  cases hst : st.status with
  | terminated r =>
      unfold step
      rw [hst]
      dsimp only
      rw [hst]
  | pending =>
      unfold step
      rw [hst]
      dsimp only
      cases hpend : st.pending with
      | nil => rfl
      | cons d rest =>
          dsimp only
          by_cases hb : maxTurns ≤ st.turnCount
          · rw [if_pos hb]
            rfl
          · rw [if_neg hb]
            dsimp only [boundAgentLogic]
            rcases applyDirective_status d.agent
                (adapterDecode parse defaultTarget
                  (rawLogic d.agent (getMemory st.memory d.agent) d.content))
                (grantTurn d rest st) with hA | hA <;> rw [hA] <;> rfl
  | running =>
      unfold step
      rw [hst]
      dsimp only
      cases hpend : st.pending with
      | nil => rfl
      | cons d rest =>
          dsimp only
          by_cases hb : maxTurns ≤ st.turnCount
          · rw [if_pos hb]
            rfl
          · rw [if_neg hb]
            dsimp only [boundAgentLogic]
            rcases applyDirective_status d.agent
                (adapterDecode parse defaultTarget
                  (rawLogic d.agent (getMemory st.memory d.agent) d.content))
                (grantTurn d rest st) with hA | hA <;> rw [hA] <;> rfl

/-- C9: two-run noninterference across sibling workspaces whose rosters share
the same registered agent name: each workspace holds its own
workspace-scoped binding state, so in a fleet run every workspace's outcome —
conversational memory and turn counters included — is a function of that
workspace's own state alone, and replacing one sibling never changes the
other's outcome. -/
theorem sibling_workspace_noninterference
    (maxTurns fuel : Nat) (logics : AgentLogics) (a : String)
    (w1 w1' w2 : Workspace)
    (h1 : a ∈ w1.roster) (h1' : a ∈ w1'.roster) (h2 : a ∈ w2.roster)
    (hne : w1.wsId ≠ w2.wsId) :
    (runFleet maxTurns logics fuel [w1, w2])[1]? =
      some (run maxTurns logics fuel w2) ∧
    (runFleet maxTurns logics fuel [w1, w2])[1]? =
      (runFleet maxTurns logics fuel [w1', w2])[1]? ∧
    (runFleet maxTurns logics fuel [w1, w2])[0]? =
      some (run maxTurns logics fuel w1) := by
  refine ⟨?_, ?_, ?_⟩ <;> simp [runFleet]

-- A successful search in a prefix list also succeeds in the appended list.
theorem find_append_some {α : Type} (f : α → Bool) (a : α) (l l' : List α)
    (h : l.find? f = some a) : (l ++ l').find? f = some a := by
  rw [List.find?_append, h]
  rfl

-- A failed search in a prefix list defers to the suffix.
theorem find_append_none {α : Type} (f : α → Bool) (l l' : List α)
    (h : l.find? f = none) : (l ++ l').find? f = l'.find? f := by
  rw [List.find?_append, h]
  rcases l'.find? f with - | b <;> rfl

-- Root-workspace creation always succeeds and allocates the manager's next
-- fresh id.
theorem createWorkspace_root (node : TaskTreeNode) (mgr : ManagerState) :
    createWorkspace node none mgr =
      (.ok (freshWorkspace node none 0 mgr.nextId),
       { mgr with
         workspaces := mgr.workspaces ++ [freshWorkspace node none 0 mgr.nextId],
         nextId := mgr.nextId + 1 }) := by
  unfold createWorkspace computeDepth
  dsimp only
  rw [if_neg (Nat.not_lt_zero mgr.maxDepth)]

-- Child creation under a tracked parent within the depth budget succeeds
-- with depth `parent.depth + 1`.
theorem createWorkspace_child (node : TaskTreeNode) (mgr : ManagerState)
    (pid : Nat) (p : Workspace)
    (hfind : findWorkspace mgr pid = some p)
    (hdepth : p.depth + 1 ≤ mgr.maxDepth) :
    createWorkspace node (some pid) mgr =
      (.ok (freshWorkspace node (some pid) (p.depth + 1) mgr.nextId),
       { mgr with
         workspaces := mgr.workspaces ++
           [freshWorkspace node (some pid) (p.depth + 1) mgr.nextId],
         nextId := mgr.nextId + 1 }) := by
  unfold createWorkspace computeDepth
  dsimp only
  rw [hfind]
  dsimp only
  rw [if_neg (Nat.not_lt.mpr hdepth)]

/-- C4: on every workspace the manager creates, `depth == 0` iff `parent_id`
is absent; a child created under a tracked parent gets
`depth = parent.depth + 1`; and a creation whose computed depth exceeds the
configured `max_workspace_depth` fails with `WorkspaceDepthExceeded`,
returning the manager exactly as it was — no partial workspace state is
built. -/
theorem create_workspace_depth
    (node : TaskTreeNode) (st : ManagerState) (parentSel : Option Nat)
    (pid : Nat) (p : Workspace)
    (hfind : findWorkspace st pid = some p) :
    resultConsistent (createWorkspace node parentSel st).1 = true ∧
    ((createWorkspace node none st).1.toOption).map
        (fun w => (w.depth, w.parentId)) = some (0, none) ∧
    (p.depth + 1 ≤ st.maxDepth →
      ((createWorkspace node (some pid) st).1.toOption).map
          (fun w => (w.depth, w.parentId)) = some (p.depth + 1, some pid)) ∧
    (st.maxDepth < p.depth + 1 →
      createWorkspace node (some pid) st =
        (.error (.workspaceDepthExceeded (p.depth + 1)), st)) := by
  refine ⟨?_, ?_, ?_, ?_⟩
  · cases parentSel with
    | none =>
        rw [createWorkspace_root]
        simp [resultConsistent, freshWorkspace]
    | some q =>
        cases hq : findWorkspace st q with
        | none =>
            unfold createWorkspace computeDepth
            dsimp only
            rw [hq]
            rfl
        | some pw =>
            by_cases hd : st.maxDepth < pw.depth + 1
            · unfold createWorkspace computeDepth
              dsimp only
              rw [hq]
              dsimp only
              rw [if_pos hd]
              rfl
            · rw [createWorkspace_child node st q pw hq (Nat.not_lt.mp hd)]
              simp [resultConsistent, freshWorkspace]
  · rw [createWorkspace_root]
    simp [freshWorkspace, Except.toOption]
  · intro hd
    rw [createWorkspace_child node st pid p hfind hd]
    simp [freshWorkspace, Except.toOption]
  · intro hd
    unfold createWorkspace computeDepth
    dsimp only
    rw [hfind]
    dsimp only
    rw [if_pos hd]

-- Membership of the subtree check is reflexive at every fuel.
theorem inSubtreeB_refl (l : List Workspace) (f x : Nat) :
    inSubtreeB l f x x = true := by
  cases f <;> simp [inSubtreeB]

-- The subtree check is monotone in the fuel.
theorem inSubtreeB_mono (l : List Workspace) :
    ∀ (f f' x t : Nat), f ≤ f' → inSubtreeB l f x t = true →
      inSubtreeB l f' x t = true := by
  intro f
  induction f with
  | zero =>
      intro f' x t _ h
      have hxt : (x == t) = true := by simpa [inSubtreeB] using h
      cases f' <;> simp [inSubtreeB, hxt]
  | succ f ih =>
      intro f' x t hle h
      obtain ⟨f'', rfl⟩ : ∃ f'', f' = f'' + 1 := ⟨f' - 1, by omega⟩
      simp only [inSubtreeB, Bool.or_eq_true] at h ⊢
      rcases h with h | h
      · exact Or.inl h
      · refine Or.inr ?_
        cases hp : parentOf l x with
        | none => rw [hp] at h; simp at h
        | some q =>
            rw [hp] at h
            dsimp only at h ⊢
            exact ih f'' q t (by omega) h

-- With duplicate-free ids, a parent link found in a filtered tracked set is
-- the same link as in the full tracked set.
theorem parentOf_filter (l : List Workspace) (q : Workspace → Bool)
    (hnd : (l.map (fun w => w.wsId)).Nodup) (x pr : Nat)
    (h : parentOf (l.filter q) x = some pr) : parentOf l x = some pr := by
  unfold parentOf at h ⊢
  cases hf : (l.filter q).find? (fun w => w.wsId == x) with
  | none => rw [hf] at h; exact absurd h (by simp)
  | some w =>
      rw [hf] at h
      have hw_l : w ∈ l := (List.mem_filter.mp (List.mem_of_find?_eq_some hf)).1
      have hw_eq : w.wsId = x := by simpa using List.find?_some hf
      cases hg : l.find? (fun w => w.wsId == x) with
      | none =>
          exfalso
          have := List.find?_eq_none.mp hg w hw_l
          simp [hw_eq] at this
      | some w' =>
          have hw'_l : w' ∈ l := List.mem_of_find?_eq_some hg
          have hw'_eq : w'.wsId = x := by simpa using List.find?_some hg
          have : w' = w :=
            List.inj_on_of_nodup_map hnd hw'_l hw_l (by rw [hw_eq, hw'_eq])
          rw [this]
          exact h

-- With duplicate-free ids, subtree membership over a filtered tracked set
-- implies subtree membership over the full tracked set.
theorem inSubtreeB_filter_lift (l : List Workspace) (q : Workspace → Bool)
    (hnd : (l.map (fun w => w.wsId)).Nodup) :
    ∀ (f x t : Nat), inSubtreeB (l.filter q) f x t = true →
      inSubtreeB l f x t = true := by
  intro f
  induction f with
  | zero => intro x t h; exact h
  | succ f ih =>
      intro x t h
      simp only [inSubtreeB, Bool.or_eq_true] at h ⊢
      rcases h with h | h
      · exact Or.inl h
      · refine Or.inr ?_
        cases hp : parentOf (l.filter q) x with
        | none => rw [hp] at h; simp at h
        | some pr =>
            rw [hp] at h
            rw [parentOf_filter l q hnd x pr hp]
            exact ih pr t h

/-- C5: `destroy_workspace` removes the named workspace and every descendant
of it from the `get_workspace_tree` view, and it is idempotent — a second
call with the same id is a total no-op that leaves the manager, and hence
the tree view, unchanged. -/
theorem destroy_workspace_cascades_idempotent
    (st : ManagerState) (wid i : Nat)
    (hnd : (st.workspaces.map (fun w => w.wsId)).Nodup)
    (hin : inSubtreeB st.workspaces st.workspaces.length i wid = true) :
    ((getWorkspaceTree (destroyWorkspace st wid)).all (fun e => e.1 != i)) = true ∧
    ((getWorkspaceTree (destroyWorkspace st wid)).all (fun e => e.1 != wid)) = true ∧
    destroyWorkspace (destroyWorkspace st wid) wid = destroyWorkspace st wid := by
  have hgone : ∀ j, inSubtreeB st.workspaces st.workspaces.length j wid = true →
      ((getWorkspaceTree (destroyWorkspace st wid)).all (fun e => e.1 != j)) = true := by
    intro j hj
    simp only [getWorkspaceTree, destroyWorkspace, List.all_eq_true]
    intro e he
    rcases List.mem_map.mp he with ⟨w, hw, rfl⟩
    have hw2 := (List.mem_filter.mp hw).2
    simp only [Bool.not_eq_true'] at hw2
    simp only [bne_iff_ne, ne_eq]
    rintro rfl
    rw [hj] at hw2
    cases hw2
  refine ⟨hgone i hin, hgone wid (inSubtreeB_refl _ _ _), ?_⟩
  unfold destroyWorkspace
  dsimp only
  congr 1
  refine List.filter_eq_self.mpr ?_
  intro w hw
  have hkeep := (List.mem_filter.mp hw).2
  simp only [Bool.not_eq_true'] at hkeep ⊢
  by_contra hcon
  rw [Bool.not_eq_false] at hcon
  have h1 := inSubtreeB_filter_lift st.workspaces _ hnd _ _ _ hcon
  have h2 := inSubtreeB_mono st.workspaces _ st.workspaces.length _ _
    (List.length_filter_le _ _) h1
  rw [hkeep] at h2
  cases h2

-- The order-independent pairing is symmetric in its two participants.
theorem pairKey_symm (a b t : String) : pairKey a b t = pairKey b a t := by
  unfold pairKey
  rcases le_total a b with hab | hba
  · by_cases hba' : b ≤ a
    · have hEq : a = b := le_antisymm hab hba'
      subst hEq
      rfl
    · rw [if_pos hab, if_neg hba']
  · by_cases hab' : a ≤ b
    · have hEq : a = b := le_antisymm hab' hba
      subst hEq
      rfl
    · rw [if_neg hab', if_pos hba]

-- The pairing keeps the thread id in the last component.
theorem pairKey_thread (a b t : String) : (pairKey a b t).2.2 = t := by
  unfold pairKey
  split <;> rfl

-- Evaluation of `get_or_create_workspace` on a mapping hit: the mapped id is
-- returned and the state is untouched.
theorem getOrCreate_hit (a b t : String) (st : AutoState)
    (e : (String × String × String) × Nat)
    (hf : st.mapping.find? (fun x => decide (x.1 = pairKey a b t)) = some e) :
    getOrCreateWorkspace a b t st = (e.2, st) := by
  unfold getOrCreateWorkspace
  rw [hf]

-- Evaluation of `get_or_create_workspace` on a mapping miss: the manager's
-- next fresh id is allocated, bound to the key, and the two-agent workspace
-- is built.
theorem getOrCreate_miss (a b t : String) (st : AutoState)
    (hf : st.mapping.find? (fun x => decide (x.1 = pairKey a b t)) = none) :
    getOrCreateWorkspace a b t st = (st.mgr.nextId, autoAfterMiss a b t st) := by
  unfold getOrCreateWorkspace
  rw [hf]
  dsimp only
  rw [createWorkspace_root]
  rfl

/-- C6: two `get_or_create_workspace` calls with identical `(a, b, t)` return
the same workspace id, the second leaving the manager untouched; the pairing
is order-independent, so `(a, b, t)` and `(b, a, t)` map to the same
workspace id; and a call with the same pair but a different thread id yields
a distinct workspace id. -/
theorem auto_workspace_pairing
    (a b t t' : String) (st : AutoState)
    (hwf : AutoWF st) (hne : t ≠ t') :
    (getOrCreateWorkspace a b t ((getOrCreateWorkspace a b t st).2)).1 =
      (getOrCreateWorkspace a b t st).1 ∧
    (getOrCreateWorkspace a b t ((getOrCreateWorkspace a b t st).2)).2 =
      (getOrCreateWorkspace a b t st).2 ∧
    (getOrCreateWorkspace a b t st).1 = (getOrCreateWorkspace b a t st).1 ∧
    (getOrCreateWorkspace a b t' ((getOrCreateWorkspace a b t st).2)).1 ≠
      (getOrCreateWorkspace a b t st).1 := by
  obtain ⟨hlt, hinj⟩ := hwf
  have hkk' : pairKey a b t ≠ pairKey a b t' := by
    intro he
    refine hne ?_
    have h2 := congrArg (fun q : String × String × String => q.2.2) he
    simp only at h2
    rwa [pairKey_thread, pairKey_thread] at h2
  have hsym : (getOrCreateWorkspace a b t st).1 = (getOrCreateWorkspace b a t st).1 := by
    unfold getOrCreateWorkspace
    rw [← pairKey_symm a b t]
    cases hg : st.mapping.find? (fun e => decide (e.1 = pairKey a b t)) with
    | some e => rfl
    | none =>
        rw [createWorkspace_root, createWorkspace_root]
        rfl
  cases hf : st.mapping.find? (fun x => decide (x.1 = pairKey a b t)) with
  | some e =>
      have hhit := getOrCreate_hit a b t st e hf
      refine ⟨by simp [hhit], by simp [hhit], hsym, ?_⟩
      rw [hhit]
      show (getOrCreateWorkspace a b t' st).1 ≠ e.2
      cases hf' : st.mapping.find? (fun x => decide (x.1 = pairKey a b t')) with
      | some e' =>
          rw [getOrCreate_hit a b t' st e' hf']
          show e'.2 ≠ e.2
          intro hEq
          have he1 : e.1 = pairKey a b t := by simpa using List.find?_some hf
          have he1' : e'.1 = pairKey a b t' := by simpa using List.find?_some hf'
          have hk := hinj e (List.mem_of_find?_eq_some hf)
            e' (List.mem_of_find?_eq_some hf') hEq.symm
          rw [he1, he1'] at hk
          exact hkk' hk
      | none =>
          rw [getOrCreate_miss a b t' st hf']
          show st.mgr.nextId ≠ e.2
          exact (Nat.ne_of_lt (hlt e (List.mem_of_find?_eq_some hf))).symm
  | none =>
      have hmiss := getOrCreate_miss a b t st hf
      have hsingle : (autoAfterMiss a b t st).mapping.find?
          (fun x => decide (x.1 = pairKey a b t)) =
          some (pairKey a b t, st.mgr.nextId) := by
        show (st.mapping ++ [(pairKey a b t, st.mgr.nextId)]).find?
          (fun x => decide (x.1 = pairKey a b t)) = _
        rw [find_append_none _ _ _ hf]
        simp
      refine ⟨?_, ?_, hsym, ?_⟩
      · rw [hmiss]
        show (getOrCreateWorkspace a b t (autoAfterMiss a b t st)).1 = st.mgr.nextId
        rw [getOrCreate_hit a b t (autoAfterMiss a b t st) _ hsingle]
      · rw [hmiss]
        show (getOrCreateWorkspace a b t (autoAfterMiss a b t st)).2 = autoAfterMiss a b t st
        rw [getOrCreate_hit a b t (autoAfterMiss a b t st) _ hsingle]
      · rw [hmiss]
        show (getOrCreateWorkspace a b t' (autoAfterMiss a b t st)).1 ≠ st.mgr.nextId
        cases hf2 : st.mapping.find? (fun x => decide (x.1 = pairKey a b t')) with
        | some e' =>
            have hstill : (autoAfterMiss a b t st).mapping.find?
                (fun x => decide (x.1 = pairKey a b t')) = some e' := by
              show (st.mapping ++ [(pairKey a b t, st.mgr.nextId)]).find?
                (fun x => decide (x.1 = pairKey a b t')) = some e'
              exact find_append_some _ _ _ _ hf2
            rw [getOrCreate_hit a b t' (autoAfterMiss a b t st) e' hstill]
            show e'.2 ≠ st.mgr.nextId
            exact Nat.ne_of_lt (hlt e' (List.mem_of_find?_eq_some hf2))
        | none =>
            have hnone2 : (autoAfterMiss a b t st).mapping.find?
                (fun x => decide (x.1 = pairKey a b t')) = none := by
              show (st.mapping ++ [(pairKey a b t, st.mgr.nextId)]).find?
                (fun x => decide (x.1 = pairKey a b t')) = none
              rw [find_append_none _ _ _ hf2]
              simp
              intro hcon
              exact hkk' hcon
            rw [getOrCreate_miss a b t' (autoAfterMiss a b t st) hnone2]
            show st.mgr.nextId + 1 ≠ st.mgr.nextId
            omega

-- Seeding never changes the workspace's identity-and-position skeleton.
theorem seedWorkspace_skel (userTask : String) (w : Workspace) :
    skel (seedWorkspace userTask w) = skel w := by
  unfold seedWorkspace
  cases hr : w.roster with
  | nil => rfl
  | cons a rest => exact (route_fields "USER" (.single a) userTask w).2.2.2.2

-- Running preserves the workspace id.
theorem run_wsId (m : Nat) (logics : AgentLogics) (fuel : Nat) (w : Workspace) :
    (run m logics fuel w).wsId = w.wsId :=
  congrArg (fun s : Nat × String × Option Nat × Nat × List String => s.1)
    (run_skel m logics fuel w)

-- Running preserves the originating node id.
theorem run_nodeId (m : Nat) (logics : AgentLogics) (fuel : Nat) (w : Workspace) :
    (run m logics fuel w).nodeId = w.nodeId :=
  congrArg (fun s : Nat × String × Option Nat × Nat × List String => s.2.1)
    (run_skel m logics fuel w)

-- Running preserves the parent link.
theorem run_parentId (m : Nat) (logics : AgentLogics) (fuel : Nat) (w : Workspace) :
    (run m logics fuel w).parentId = w.parentId :=
  congrArg (fun s : Nat × String × Option Nat × Nat × List String => s.2.2.1)
    (run_skel m logics fuel w)

-- Seeding preserves the workspace id.
theorem seed_wsId (userTask : String) (w : Workspace) :
    (seedWorkspace userTask w).wsId = w.wsId :=
  congrArg (fun s : Nat × String × Option Nat × Nat × List String => s.1)
    (seedWorkspace_skel userTask w)

-- Creating one child workspace per child node, in order, succeeds under a
-- tracked parent whose depth stays within the budget, and the created list
-- mirrors the child-node list one-to-one.
theorem createChildWorkspaces_ok (pid : Nat) (p : Workspace) :
    ∀ (cs : List TaskTreeNode) (mgr : ManagerState),
      findWorkspace mgr pid = some p → p.depth + 1 ≤ mgr.maxDepth →
      ∃ ws mgr',
        createChildWorkspaces pid cs mgr = (.ok ws, mgr') ∧
        ws.map (fun w => w.nodeId) = cs.map (fun c => c.tid) ∧
        (∀ w ∈ ws, w.parentId = some pid ∧ w.depth = p.depth + 1) := by
  intro cs
  induction cs with
  | nil =>
      intro mgr h1 h2
      exact ⟨[], mgr, rfl, rfl, by simp⟩
  | cons c cs ih =>
      intro mgr h1 h2
      have hcreate := createWorkspace_child c mgr pid p h1 h2
      have h1' : findWorkspace
          { mgr with
            workspaces := mgr.workspaces ++
              [freshWorkspace c (some pid) (p.depth + 1) mgr.nextId],
            nextId := mgr.nextId + 1 } pid = some p := by
        unfold findWorkspace at h1 ⊢
        exact find_append_some _ _ _ _ h1
      obtain ⟨ws, mgr', hrec, hmap, hall⟩ := ih _ h1' h2
      refine ⟨freshWorkspace c (some pid) (p.depth + 1) mgr.nextId :: ws, mgr', ?_, ?_, ?_⟩
      · unfold createChildWorkspaces
        rw [hcreate]
        dsimp only
        rw [hrec]
      · simp [freshWorkspace, hmap]
      · intro w hw
        rcases List.mem_cons.mp hw with rfl | hw
        · exact ⟨rfl, rfl⟩
        · exact hall w hw

/-- C10: for every task plan whose root has `n` ordered children,
`execute_task_plan` returns `(root_workspace, child_workspaces)` where the
child list has length `n`, its `i`-th element is the workspace created from
the `i`-th child node (same node id, in the task tree's child order,
one-to-one), and every returned child is parented to the returned root. -/
theorem execute_task_plan_child_order
    (maxTurns fuel : Nat) (logics : AgentLogics)
    (plan : TaskPlan) (userTask : String) (st : ManagerState)
    (hdepth : 1 ≤ st.maxDepth) (hids : IdsBelow st) :
    childNodeIds (executeTaskPlan maxTurns logics fuel plan userTask st).1 =
      some (plan.root.children.map (fun c => c.tid)) ∧
    childCount (executeTaskPlan maxTurns logics fuel plan userTask st).1 =
      some plan.root.children.length ∧
    childrenLinked (executeTaskPlan maxTurns logics fuel plan userTask st).1 = true := by
  have hroot := createWorkspace_root plan.root st
  have hfind : findWorkspace
      { st with
        workspaces := st.workspaces ++ [freshWorkspace plan.root none 0 st.nextId],
        nextId := st.nextId + 1 } (freshWorkspace plan.root none 0 st.nextId).wsId =
      some (freshWorkspace plan.root none 0 st.nextId) := by
    unfold findWorkspace
    dsimp only
    have hnone : st.workspaces.find?
        (fun w => w.wsId == (freshWorkspace plan.root none 0 st.nextId).wsId) = none := by
      refine List.find?_eq_none.mpr (fun w hw => ?_)
      have hbound := hids w hw
      simp only [freshWorkspace, beq_iff_eq]
      omega
    rw [find_append_none _ _ _ hnone]
    simp [freshWorkspace]
  obtain ⟨ws, mgr', hrec, hmap, hall⟩ :=
    createChildWorkspaces_ok (freshWorkspace plan.root none 0 st.nextId).wsId
      (freshWorkspace plan.root none 0 st.nextId) plan.root.children _ hfind hdepth
  have hexec : executeTaskPlan maxTurns logics fuel plan userTask st =
      (.ok (run maxTurns logics fuel (seedWorkspace userTask
              (freshWorkspace plan.root none 0 st.nextId)),
            runFleet maxTurns logics fuel ws), mgr') := by
    unfold executeTaskPlan
    rw [hroot]
    dsimp only
    rw [hrec]
  have hfleet : (runFleet maxTurns logics fuel ws).map (fun w => w.nodeId) =
      ws.map (fun w => w.nodeId) := by
    unfold runFleet
    rw [List.map_map]
    exact List.map_congr_left (fun w _ => run_nodeId maxTurns logics fuel w)
  have hlen : ws.length = plan.root.children.length := by
    have hml := congrArg List.length hmap
    simpa using hml
  refine ⟨?_, ?_, ?_⟩
  · rw [hexec]
    simp only [childNodeIds, Except.toOption, Option.map]
    rw [hfleet, hmap]
  · rw [hexec]
    simp only [childCount, Except.toOption, Option.map]
    simp [runFleet, hlen]
  · rw [hexec]
    simp only [childrenLinked]
    rw [List.all_eq_true]
    intro w hw
    unfold runFleet at hw
    rcases List.mem_map.mp hw with ⟨w0, hw0, rfl⟩
    simp only [beq_iff_eq]
    rw [run_parentId, run_wsId, seed_wsId, (hall w0 hw0).1]

/-- Witness for C1: routing `USER -> Agent99` where `Agent99` is not in the
one-agent roster fails and leaves the transcript unchanged. -/
theorem unknown_recipient_routing_fails_witness :
    (route "USER" (.single "Agent99") "hi" wsAliceOnly).1.isErr = true ∧
    (route "USER" (.single "Agent99") "hi" wsAliceOnly).2 = wsAliceOnly ∧
    (route "USER" (.single "Agent99") "hi" wsAliceOnly).2.transcript =
      wsAliceOnly.transcript :=
  unknown_recipient_routing_fails "USER" "hi" wsAliceOnly (.single "Agent99")
    (Or.inl ⟨"Agent99", rfl, by decide, by decide, by decide⟩)

/-- Witness for C2 at the ping-pong scenario with turn limit 4. -/
theorem max_agent_turns_never_exceeded_witness :
    (run 4 pingLogics 10 pingInit).turnCount ≤ 4 ∧
    (pingInit.status = .running → pingInit.pending ≠ [] → 4 ≤ pingInit.turnCount →
      step 4 pingLogics pingInit =
        { pingInit with status := .terminated .maxTurnsReached }) ∧
    (run 4 pingLogics 10 pingInit).turnCount = 4 ∧
    (run 4 pingLogics 10 pingInit).status = .terminated .maxTurnsReached :=
  max_agent_turns_never_exceeded 4 10 pingLogics pingInit (by decide)

/-- Witness for C3: a coordinator broadcasting one task to three leads. -/
theorem broadcast_fanout_witness :
    (step 20 bcastLogics bcastInit).transcript =
      bcastInit.transcript ++
        (["L1", "L2", "L3"].map (fun n => ⟨"coordinator", n, "go"⟩)) ∧
    (step 20 bcastLogics bcastInit).transcript.length =
      bcastInit.transcript.length + (["L1", "L2", "L3"] : List String).length ∧
    (step 20 bcastLogics bcastInit).pending =
      [] ++ (["L1", "L2", "L3"].map (fun n => ⟨n, "coordinator", "go"⟩)) ∧
    (step 20 bcastLogics bcastInit).pending.length =
      ([] : List Delivery).length + (["L1", "L2", "L3"] : List String).length ∧
    lookupTurns (step 20 bcastLogics bcastInit).agentTurns "coordinator" =
      lookupTurns bcastInit.agentTurns "coordinator" + 1 ∧
    (step 20 bcastLogics bcastInit).turnCount = bcastInit.turnCount + 1 :=
  broadcast_fanout 20 bcastLogics bcastInit ⟨"coordinator", "USER", "task"⟩ []
    ["L1", "L2", "L3"] "go" rfl rfl (by decide) rfl (by decide)

/-- Witness for C7: a failing workspace and an independent healthy workspace
in one fleet call. -/
theorem fleet_error_containment_witness :
    (run 5 errLogics (3 + 1) wsFailing).status =
      .terminated (.agentError "adapter failure") ∧
    runFleet 5 errLogics (3 + 1) [wsFailing, wsHealthy] =
      [run 5 errLogics (3 + 1) wsFailing, run 5 errLogics (3 + 1) wsHealthy] ∧
    (runFleet 5 errLogics (3 + 1) [wsFailing, wsHealthy])[1]? =
      some (run 5 errLogics (3 + 1) wsHealthy) :=
  fleet_error_containment 5 3 errLogics wsFailing wsHealthy
    ⟨"failing", "USER", "go"⟩ [] "adapter failure" rfl rfl (by decide) rfl

/-- Witness for C8 at a parser that rejects the raw output. -/
theorem malformed_output_recovered_witness :
    parseAgentOutput (fun _ => none) "not json" =
      .error (.unparsable "not json") ∧
    adapterDecode (fun _ => none) "USER" "not json" =
      ⟨.single "USER", "not json"⟩ ∧
    isAgentError (step 5 (boundAgentLogic (fun _ => none) "USER"
        (fun _ _ _ => "not json")) wsHealthy).status =
      isAgentError wsHealthy.status :=
  malformed_output_recovered (fun _ => none) "USER" "not json" 5 wsHealthy
    (fun _ _ _ => "not json") rfl

/-- Witness for C9 at three sibling workspaces sharing the agent name `ok`. -/
theorem sibling_workspace_noninterference_witness :
    (runFleet 5 errLogics 4 [wsHealthy, wsHealthyOther])[1]? =
      some (run 5 errLogics 4 wsHealthyOther) ∧
    (runFleet 5 errLogics 4 [wsHealthy, wsHealthyOther])[1]? =
      (runFleet 5 errLogics 4 [wsHealthyAlt, wsHealthyOther])[1]? ∧
    (runFleet 5 errLogics 4 [wsHealthy, wsHealthyOther])[0]? =
      some (run 5 errLogics 4 wsHealthy) :=
  sibling_workspace_noninterference 5 4 errLogics "ok"
    wsHealthy wsHealthyAlt wsHealthyOther
    (by decide) (by decide) (by decide) (by decide)

/-- Witness for C4: creating a child under the tracked root of a one-root
manager with depth budget 1. -/
theorem create_workspace_depth_witness :
    resultConsistent (createWorkspace nodeChild (some 0) mgrOneRoot).1 = true ∧
    ((createWorkspace nodeChild none mgrOneRoot).1.toOption).map
        (fun w => (w.depth, w.parentId)) = some (0, none) ∧
    (rootWs.depth + 1 ≤ mgrOneRoot.maxDepth →
      ((createWorkspace nodeChild (some 0) mgrOneRoot).1.toOption).map
          (fun w => (w.depth, w.parentId)) = some (rootWs.depth + 1, some 0)) ∧
    (mgrOneRoot.maxDepth < rootWs.depth + 1 →
      createWorkspace nodeChild (some 0) mgrOneRoot =
        (.error (.workspaceDepthExceeded (rootWs.depth + 1)), mgrOneRoot)) :=
  create_workspace_depth nodeChild mgrOneRoot (some 0) 0 rootWs (by decide)

/-- Witness for C5: destroying the root of a three-workspace tree removes the
root and both children, and a second destruction is a no-op. -/
theorem destroy_workspace_cascades_idempotent_witness :
    ((getWorkspaceTree (destroyWorkspace mgrTree 0)).all (fun e => e.1 != 2)) = true ∧
    ((getWorkspaceTree (destroyWorkspace mgrTree 0)).all (fun e => e.1 != 0)) = true ∧
    destroyWorkspace (destroyWorkspace mgrTree 0) 0 = destroyWorkspace mgrTree 0 :=
  destroy_workspace_cascades_idempotent mgrTree 0 2 (by decide) (by decide)

/-- Witness for C6 at an empty auto-workspace manager and two thread ids. -/
theorem auto_workspace_pairing_witness :
    (getOrCreateWorkspace "a1" "b1" "t1"
        ((getOrCreateWorkspace "a1" "b1" "t1" autoEmpty).2)).1 =
      (getOrCreateWorkspace "a1" "b1" "t1" autoEmpty).1 ∧
    (getOrCreateWorkspace "a1" "b1" "t1"
        ((getOrCreateWorkspace "a1" "b1" "t1" autoEmpty).2)).2 =
      (getOrCreateWorkspace "a1" "b1" "t1" autoEmpty).2 ∧
    (getOrCreateWorkspace "a1" "b1" "t1" autoEmpty).1 =
      (getOrCreateWorkspace "b1" "a1" "t1" autoEmpty).1 ∧
    (getOrCreateWorkspace "a1" "b1" "t2"
        ((getOrCreateWorkspace "a1" "b1" "t1" autoEmpty).2)).1 ≠
      (getOrCreateWorkspace "a1" "b1" "t1" autoEmpty).1 :=
  auto_workspace_pairing "a1" "b1" "t1" "t2" autoEmpty
    (by refine ⟨?_, ?_⟩ <;> intro e he <;> cases he) (by decide)

/-- Witness for C10 at a two-child plan over an empty manager. -/
theorem execute_task_plan_child_order_witness :
    childNodeIds (executeTaskPlan 4 pingLogics 3 planTwo "go" mgrEmpty).1 =
      some (planTwo.root.children.map (fun c => c.tid)) ∧
    childCount (executeTaskPlan 4 pingLogics 3 planTwo "go" mgrEmpty).1 =
      some planTwo.root.children.length ∧
    childrenLinked (executeTaskPlan 4 pingLogics 3 planTwo "go" mgrEmpty).1 = true :=
  execute_task_plan_child_order 4 3 pingLogics planTwo "go" mgrEmpty
    (by decide) (by intro w hw; cases hw)

end Synqed
